import Mathlib

/-!
Verification of the cybootloader host tool (Cellgain/bootloader-usb).

Shallow embedding of the Go sources:
- `cybootloader_protocol/commands.go`: frame builders, response parsers,
  checksum (`calcChecksum`);
- `cyacdParse/parse.go`, `cyacdParse/row.go`: firmware image parsing;
- `main.go`: the programming session (chunked row transfer, per-row
  checksum verification, verify-app-checksum, exit-bootloader).

Conventions of the embedding:
- Go `byte`/`uint8` values are `Nat` kept below 256; a Go cast `byte(x)`
  is embedded as `x % 256`, `uint16(x)` as `x % 65536`; Go `uint` is an
  unbounded `Nat` (sums never overflow 64 bits for realistic frames, and
  the source relies on that).
- A Go slice is a `List Nat`; an index expression is checked against
  the slice length, and a slice expression against the capacity.  For
  the response buffers capacity equals length (they are freshly
  allocated), so `r[:k]` aborts — the `crash` result — exactly when `k`
  exceeds the length; for the hex-decode buffer of `NewRow`, whose
  capacity `len(line)/2` exceeds the decoded prefix when the hex is
  invalid, the capacity is modelled explicitly and the undecoded
  remainder reads as zero bytes.
- A Go `(value, error)` pair is `GoVal.ret value err`; a runtime panic
  (out-of-range index or slice) is `GoVal.crash`.
-/

namespace Bootloader

/-! ## Protocol constants (commands.go) -/

def CmdStart : Nat := 0x01
def CmdStop : Nat := 0x17
def BaseCmdSize : Nat := 0x07
def CmdVerifyChecksum : Nat := 0x31
def CmdGetFlashSize : Nat := 0x32
def CmdEraseRow : Nat := 0x34
def CmdSendData : Nat := 0x37
def CmdEnterBootloader : Nat := 0x38
def CmdProgramRow : Nat := 0x39
def CmdGetRowChecksum : Nat := 0x3A
def CmdExitBootloader : Nat := 0x3B
def CyretSuccess : Nat := 0x00

/-- Result of a Go function: either a runtime panic (`crash`, from an
out-of-range index or slice expression) or a returned value together
with the Go `error` result (`none` when the error is nil). -/
inductive GoVal (α : Type) where
  | crash : GoVal α
  | ret (v : α) (err : Option String) : GoVal α
deriving Repr, DecidableEq

/-- The Go `error` component of a function result (`none` for a nil
error, and no error is observable from a panic). -/
def GoVal.errOf {α : Type} : GoVal α → Option String
  | .crash => none
  | .ret _ e => e

/-- `calcChecksum` from commands.go: sums `frame[:len(frame)-3]` into an
unbounded `uint`, computes `1 + (0xffff ^ sum)` and returns
`(uint8(result & 0xff), uint8(result >> 8))`. -/
def calcChecksum (frame : List Nat) : Nat × Nat :=
  let sum := (frame.take (frame.length - 3)).sum
  let result := 1 + (0xffff ^^^ sum)
  ((result &&& 0xff) % 256, (result >>> 8) % 256)

/-! ## Request frame builders (commands.go)

Each Go builder allocates a zero frame, fills the header bytes, appends
the payload and three zero bytes, then overwrites the last three bytes
with checksum-low, checksum-high and the stop byte.  The checksum is
computed on the frame while those last three bytes are still zero, which
is exactly `calcChecksum` of the final frame as well (the last three
bytes are excluded from the sum). -/

/-- `CreateEnterBootloaderCmd` from commands.go.  With a nil key the Go
code builds a 7-byte frame and still appends three zero bytes before the
checksum/stop bytes, yielding a 10-byte frame with three zero filler
bytes; with a non-nil key the key length must be 6. -/
def CreateEnterBootloaderCmd (key : Option (List Nat)) : Except String (List Nat) :=
  match key with
  | none =>
    let body := [CmdStart, CmdEnterBootloader, 0x00, 0x00, 0, 0, 0] ++ [0, 0, 0]
    let c := calcChecksum body
    .ok ([CmdStart, CmdEnterBootloader, 0x00, 0x00, 0, 0, 0] ++ [c.1, c.2, CmdStop])
  | some k =>
    if k.length ≠ 6 then .error "invalid size of key. Must be 6 bytes"
    else
      let body := [CmdStart, CmdEnterBootloader, 0x06, 0x00] ++ k ++ [0, 0, 0]
      let c := calcChecksum body
      .ok ([CmdStart, CmdEnterBootloader, 0x06, 0x00] ++ k ++ [c.1, c.2, CmdStop])

/-- `CreateExitBootloaderCmd` from commands.go: 7-byte frame. -/
def CreateExitBootloaderCmd : List Nat :=
  let body := [CmdStart, CmdExitBootloader, 0x00, 0x00, 0, 0, 0]
  let c := calcChecksum body
  [CmdStart, CmdExitBootloader, 0x00, 0x00, c.1, c.2, CmdStop]

/-- `CreateGetFlashSizeCmd` from commands.go: 8-byte frame carrying the
array id. -/
def CreateGetFlashSizeCmd (arrayID : Nat) : List Nat :=
  let body := [CmdStart, CmdGetFlashSize, 1, 1 >>> 8, arrayID % 256, 0, 0, 0]
  let c := calcChecksum body
  [CmdStart, CmdGetFlashSize, 1, 1 >>> 8, arrayID % 256, c.1, c.2, CmdStop]

/-- `CreateSendDataCmd` from commands.go: header, raw chunk bytes,
checksum, stop.  `frame[2] = byte(len(b))`, `frame[3] = byte(len(b)) >> 8`
(the cast happens before the shift, so `frame[3]` is always 0). -/
def CreateSendDataCmd (b : List Nat) : List Nat :=
  let head := [CmdStart, CmdSendData, b.length % 256, (b.length % 256) >>> 8]
  let c := calcChecksum (head ++ b ++ [0, 0, 0])
  head ++ b ++ [c.1, c.2, CmdStop]

/-- `CreateProgramRowCmd` from commands.go: header with array id and row
number, then the remaining row bytes.  `frame[5] = byte(row)` and
`frame[6] = byte(row) >> 8` (the cast happens before the shift). -/
def CreateProgramRowCmd (b : List Nat) (arrayID : Nat) (row : Nat) : List Nat :=
  let head := [CmdStart, CmdProgramRow, (3 + b.length) % 256, ((3 + b.length) % 256) >>> 8,
               arrayID % 256, row % 256, (row % 256) >>> 8]
  let c := calcChecksum (head ++ b ++ [0, 0, 0])
  head ++ b ++ [c.1, c.2, CmdStop]

/-- `CreateGetRowChecksumCmd` from commands.go: 10-byte frame.
`frame[5] = byte(row)`, `frame[6] = byte(row) >> 8` (cast before shift). -/
def CreateGetRowChecksumCmd (arrayID : Nat) (row : Nat) : List Nat :=
  let body := [CmdStart, CmdGetRowChecksum, 3, 3 >>> 8, arrayID % 256,
               row % 256, (row % 256) >>> 8, 0, 0, 0]
  let c := calcChecksum body
  [CmdStart, CmdGetRowChecksum, 3, 3 >>> 8, arrayID % 256,
   row % 256, (row % 256) >>> 8, c.1, c.2, CmdStop]

/-- `CreateEraseRowCmd` from commands.go: 10-byte frame, same layout as
`CreateGetRowChecksumCmd` with the erase-row command code. -/
def CreateEraseRowCmd (arrayID : Nat) (row : Nat) : List Nat :=
  let body := [CmdStart, CmdEraseRow, 3, 3 >>> 8, arrayID % 256,
               row % 256, (row % 256) >>> 8, 0, 0, 0]
  let c := calcChecksum body
  [CmdStart, CmdEraseRow, 3, 3 >>> 8, arrayID % 256,
   row % 256, (row % 256) >>> 8, c.1, c.2, CmdStop]

/-- `CreateVerifyAppChecksumCmd` from commands.go: 7-byte frame. -/
def CreateVerifyAppChecksumCmd : List Nat :=
  let body := [CmdStart, CmdVerifyChecksum, 0, 0 >>> 8, 0, 0, 0]
  let c := calcChecksum body
  [CmdStart, CmdVerifyChecksum, 0, 0 >>> 8, c.1, c.2, CmdStop]

/-! ## Response parsers (commands.go)

Every parser first evaluates `frame := r[:sizeResult]`, which aborts the
program when the input slice is shorter than the fixed expected size;
this is the `crash` branch.  Then the status byte is inspected before
the framing bytes. -/

def bootloaderErrMsg : String := "[ERROR] The bootloader reported an error"
def malformedErrMsg : String := "[ERROR] The data is not of the proper form"

/-- Silicon identity reported by the bootloader (result of
`ParseEnterBootloaderCmdResult`; the Go map with keys siliconID,
siliconRev, bootloaderVersion). -/
structure EnterResult where
  siliconID : Nat
  siliconRev : Nat
  bootloaderVersion : Nat
deriving Repr, DecidableEq

/-- Flash bounds reported by the bootloader (result of
`ParseCreateGetFlashSizeCmdResult`; the Go map with keys startRow,
endRow). -/
structure FlashBounds where
  startRow : Nat
  endRow : Nat
deriving Repr, DecidableEq

/-- `ParseEnterBootloaderCmdResult` from commands.go; expected size
`BaseCmdSize + 8 = 15`. -/
def ParseEnterBootloaderCmdResult (r : List Nat) : GoVal (Option EnterResult) :=
  if r.length < 15 then .crash
  else if r.getD 1 0 ≠ CyretSuccess then .ret none (some bootloaderErrMsg)
  else if r.getD 0 0 ≠ CmdStart ∨ r.getD 2 0 ≠ 8 ∨ r.getD 3 0 ≠ 8 >>> 8 ∨ r.getD 14 0 ≠ CmdStop then
    .ret none (some malformedErrMsg)
  else
    .ret (some ⟨(r.getD 7 0) <<< 24 ||| (r.getD 6 0) <<< 16 ||| (r.getD 5 0) <<< 8 ||| r.getD 4 0,
                r.getD 8 0,
                (r.getD 11 0) <<< 16 ||| (r.getD 10 0) <<< 8 ||| r.getD 9 0⟩) none

/-- `ParseCreateGetFlashSizeCmdResult` from commands.go; expected size
`BaseCmdSize + 4 = 11`. -/
def ParseCreateGetFlashSizeCmdResult (r : List Nat) : GoVal (Option FlashBounds) :=
  if r.length < 11 then .crash
  else if r.getD 1 0 ≠ CyretSuccess then .ret none (some bootloaderErrMsg)
  else if r.getD 0 0 ≠ CmdStart ∨ r.getD 2 0 ≠ 4 ∨ r.getD 3 0 ≠ 4 >>> 8 ∨ r.getD 10 0 ≠ CmdStop then
    .ret none (some malformedErrMsg)
  else
    .ret (some ⟨(r.getD 5 0) <<< 8 ||| r.getD 4 0, (r.getD 7 0) <<< 8 ||| r.getD 6 0⟩) none

/-- `ParseDefaultCmdResult` from commands.go; expected size
`BaseCmdSize = 7`; returns a bare boolean, never an error. -/
def ParseDefaultCmdResult (r : List Nat) : GoVal Bool :=
  if r.length < 7 then .crash
  else if r.getD 1 0 ≠ CyretSuccess then .ret false none
  else if r.getD 0 0 ≠ CmdStart ∨ r.getD 2 0 ≠ 0 ∨ r.getD 3 0 ≠ 0 ∨ r.getD 6 0 ≠ CmdStop then
    .ret false none
  else .ret true none

/-- `ParseSendDataCmdResult` from commands.go (delegates to the default
parser). -/
def ParseSendDataCmdResult (r : List Nat) : GoVal Bool :=
  ParseDefaultCmdResult r

/-- `ParseProgramRowCmdResult` from commands.go (delegates to the
default parser). -/
def ParseProgramRowCmdResult (r : List Nat) : GoVal Bool :=
  ParseDefaultCmdResult r

/-- `ParseEraseRowCmdResult` from commands.go (delegates to the default
parser). -/
def ParseEraseRowCmdResult (r : List Nat) : GoVal Bool :=
  ParseDefaultCmdResult r

/-- `ParseGetRowChecksumCmdResult` from commands.go; expected size
`BaseCmdSize + 1 = 8`; on error Go returns the value 0xff together with
the error. -/
def ParseGetRowChecksumCmdResult (r : List Nat) : GoVal Nat :=
  if r.length < 8 then .crash
  else if r.getD 1 0 ≠ CyretSuccess then .ret 0xff (some bootloaderErrMsg)
  else if r.getD 0 0 ≠ CmdStart ∨ r.getD 2 0 ≠ 1 ∨ r.getD 3 0 ≠ 1 >>> 8 ∨ r.getD 7 0 ≠ CmdStop then
    .ret 0xff (some malformedErrMsg)
  else .ret (r.getD 4 0) none

/-- `ParseVerifyAppChecksumCmdResult` from commands.go; expected size
`BaseCmdSize + 1 = 8`; on error Go returns the value 0xff together with
the error. -/
def ParseVerifyAppChecksumCmdResult (r : List Nat) : GoVal Nat :=
  if r.length < 8 then .crash
  else if r.getD 1 0 ≠ CyretSuccess then .ret 0xff (some bootloaderErrMsg)
  else if r.getD 0 0 ≠ CmdStart ∨ r.getD 2 0 ≠ 1 ∨ r.getD 3 0 ≠ 1 >>> 8 ∨ r.getD 7 0 ≠ CmdStop then
    .ret 0xff (some malformedErrMsg)
  else .ret (r.getD 4 0) none

/-! ## Firmware image parsing (cyacdParse/parse.go, cyacdParse/row.go)

Both `parseHeader` and `NewRow` call Go `hex.DecodeString` and discard
the error.  `hex.DecodeString` returns the bytes decoded before the
first malformed pair (an invalid digit or a trailing odd character),
embedded here as `hexDecodeBytes`. -/

/-- Value of one ASCII hex digit, as Go `fromHexChar`: digits 0-9
(codes 48-57), a-f (97-102), A-F (65-70). -/
def hexDigitVal (c : Char) : Option Nat :=
  if 48 ≤ c.toNat ∧ c.toNat ≤ 57 then some (c.toNat - 48)
  else if 97 ≤ c.toNat ∧ c.toNat ≤ 102 then some (c.toNat - 87)
  else if 65 ≤ c.toNat ∧ c.toNat ≤ 70 then some (c.toNat - 55)
  else none

/-- Go `hex.DecodeString`, keeping only the successfully decoded prefix
(the accompanying error is discarded by both callers in cyacdParse):
characters are consumed two at a time; decoding stops at the first
invalid digit or at a trailing odd character. -/
def hexDecodeBytes : List Char → List Nat
  | a :: b :: rest =>
    match hexDigitVal a, hexDigitVal b with
    | some x, some y => (x * 16 + y) :: hexDecodeBytes rest
    | _, _ => []
  | _ => []

/-- `parseHeader` from parse.go, as a function of the first line of the
file (`none` when `ReadLine` fails on an empty file, which Go returns as
an error).  The hex-decode error is discarded; the accesses
`decoded[0]` … `decoded[4]` abort with an index-out-of-range panic when
fewer than 5 bytes were decoded.  Returns `(siliconID, siliconRev)`. -/
def parseHeader (line : Option (List Char)) : GoVal (Nat × Nat) :=
  match line with
  | none => .ret (0, 0) (some "EOF")
  | some l =>
    let decoded := hexDecodeBytes l
    if decoded.length < 5 then .crash
    else
      .ret ((decoded.getD 0 0) <<< 24 ||| (decoded.getD 1 0) <<< 16 |||
            (decoded.getD 2 0) <<< 8 ||| decoded.getD 3 0,
            decoded.getD 4 0) none

/-- One firmware row (`Row` from row.go): `arrayID` (uint8), `rowNum`
(uint16), `size` (uint16), `checksum` (uint8, last decoded byte of the
line), `data`. -/
structure Row where
  arrayID : Nat
  rowNum : Nat
  size : Nat
  checksum : Nat
  data : List Nat
deriving Repr, DecidableEq

/-- `NewRow` from row.go, on one row line.  The first character of the
line is skipped (`r[1:]`), the rest is hex-decoded with the error
discarded.  `hex.DecodeString` allocates a buffer of
`DecodedLen(len(s)) = len(s)/2` bytes and returns the decoded prefix of
it, so the prefix's capacity stays `len(s)/2` even when the decode
stopped early at invalid hex.  The index accesses `decoded[0]` …
`decoded[4]` and `decoded[len(decoded)-1]` are checked against the
prefix length and abort when fewer than 5 bytes were decoded.  The
slice expression `decoded[5 : size+5]`, however, is checked against the
buffer capacity: it aborts when `size + 5` (computed in uint16, so it
wraps for `size ≥ 0xFFFB`, making the slice inverted and panicking)
exceeds `len(s)/2` or falls below 5, and otherwise reads the undecoded
remainder of the buffer as zero bytes — an invalid-hex line with
enough trailing characters is accepted silently with zero-filled data.
When the decode has exactly `size + 5` bytes, the last data byte
doubles as the checksum. -/
def NewRow (r : List Char) : GoVal Row :=
  let s := r.drop 1
  let decoded := hexDecodeBytes s
  if decoded.length < 5 then .crash
  else
    let size := (decoded.getD 3 0) <<< 8 ||| decoded.getD 4 0
    if (size + 5) % 65536 < 5 ∨ s.length / 2 < (size + 5) % 65536 then .crash
    else
      .ret ⟨decoded.getD 0 0,
            (decoded.getD 1 0) <<< 8 ||| decoded.getD 2 0,
            size,
            decoded.getD (decoded.length - 1) 0,
            ((decoded ++ List.replicate (s.length / 2 - decoded.length) 0).drop 5).take
              ((size + 5) % 65536 - 5)⟩ none

/-- Parsed firmware image as the session uses it: header identity plus
the rows in file order (`Cyacd` with `SiliconID()`, `SiliconRev()`,
`ParseRowData()`). -/
structure Cyacd where
  siliconID : Nat
  siliconRev : Nat
  rows : List Row
deriving Repr, DecidableEq

/-! ## Chunked row transfer (main.go)

`PacketSize = 64`.  The send loop runs while
`r.Size() - offset + 7 > PacketSize` in uint16 arithmetic and sends
`SendData` chunks of `PacketSize - 7 = 57` bytes; the remainder goes out
with `ProgramRow`.  The loop maintains `offset ≤ size` (it only advances
when `size ≥ offset + 58`), so the uint16 subtraction below is written
as truncated `Nat` subtraction with the `+ 7` wraparound made explicit
by the `% 65536`. -/

def PacketSize : Nat := 64

/-- The uint16 loop condition `r.Size() - offset + 7 > PacketSize` of
main.go (valid for `offset ≤ size < 65536`, which the loop maintains). -/
def chunkCond (size offset : Nat) : Prop :=
  (size - offset + 7) % 65536 > PacketSize

instance (size offset : Nat) : Decidable (chunkCond size offset) := by
  unfold chunkCond; infer_instance

/-- Payloads of the `SendData` chunks the main.go loop sends for one
row, in order: while the condition holds, `r.Data()[offset:offset+57]`
is sent and `offset` advances by 57. -/
def sendDataChunks (data : List Nat) (size offset : Nat) : List (List Nat) :=
  if chunkCond size offset then
    ((data.drop offset).take 57) :: sendDataChunks data size (offset + 57)
  else []
termination_by size - offset
decreasing_by
  have hcc : chunkCond size offset := by assumption
  unfold chunkCond PacketSize at hcc
  have := Nat.mod_le (size - offset + 7) 65536
  omega

/-- The value of `offset` when the send loop of main.go exits. -/
def finalOffset (size offset : Nat) : Nat :=
  if chunkCond size offset then finalOffset size (offset + 57) else offset
termination_by size - offset
decreasing_by
  have hcc : chunkCond size offset := by assumption
  unfold chunkCond PacketSize at hcc
  have := Nat.mod_le (size - offset + 7) 65536
  omega

/-- Data portion of the final `ProgramRow` frame:
`r.Data()[offset : offset + (r.Size() - offset)]` at the final offset. -/
def programRowData (data : List Nat) (size : Nat) : List Nat :=
  (data.drop (finalOffset size 0)).take (size - finalOffset size 0)

/-- The per-row expected checksum computed by main.go before
`GetRowChecksum`:
`r.Checksum() + r.ArrayID() + byte(r.RowNum()>>8) + byte(r.RowNum()) + byte(r.Size()) + byte(r.Size()>>8)`
with every addition performed in `byte` (mod 256). -/
def expectedRowChecksum (checksum arrayID rowNum size : Nat) : Nat :=
  (((((checksum % 256 + arrayID % 256) % 256 +
      (rowNum >>> 8) % 256) % 256 +
      rowNum % 256) % 256 +
      size % 256) % 256 +
      (size >>> 8) % 256) % 256

/-! ## The programming session (main.go)

The session is the part of `main` that runs once the transport is
acquired and the image and key are parsed.  The device is modelled as
the sequence of response buffers it produces: `resp n` is what the
transport hands back on the n-th read.  `readPeripheral` always reads
into a fresh `make([]byte, PacketSize)` buffer, so every buffer the
parsers see has exactly 64 bytes (unwritten bytes stay zero); transport
write/read/close failures are not modelled (every fatal outcome below is
reachable through response contents alone).

`checkError` (main.go) calls `log.Fatalln` when its error is non-nil,
which terminates the process at once: no later statement — including
the exit-bootloader write at the end of `main` — runs after it.  That
immediate termination is the `Outcome.fatal` result. -/

/-- Session progress: the frames written so far and the number of reads
consumed. -/
structure St where
  sent : List (List Nat)
  idx : Nat
deriving Repr, DecidableEq

/-- How the session terminates: normal completion (the tail of `main`
ran, including the exit-bootloader write), process termination through
`checkError`/`log.Fatalln`, or a runtime panic. -/
inductive Outcome where
  | completed : Outcome
  | fatal (msg : String) : Outcome
  | crashed : Outcome
deriving Repr, DecidableEq

/-- Observable result of one session: the frames written, how it ended,
whether the `[SUCCESS]` line was logged, and the parsed
`VerifyAppChecksum` value (when that point was reached). -/
structure SessionResult where
  sent : List (List Nat)
  outcome : Outcome
  successReported : Bool
  checksumApp : Option Nat
deriving Repr, DecidableEq

/-- `readPeripheral` from main.go: a fresh `make([]byte, PacketSize)`
buffer, its prefix overwritten by the read — always exactly 64 bytes. -/
def fill64 (l : List Nat) : List Nat := (l ++ List.replicate 64 0).take 64

/-- `transactionPeripheral` from main.go: write the frame, then read the
response (the pacing delay has no observable effect here). -/
def transact (resp : Nat → List Nat) (st : St) (frame : List Nat) : St × List Nat :=
  (⟨st.sent ++ [frame], st.idx + 1⟩, fill64 (resp st.idx))

/-- Result of the per-row work: continue with the next row, or terminate
the session. -/
inductive RowRes where
  | next (st : St) : RowRes
  | stop (st : St) (o : Outcome) : RowRes
deriving Repr, DecidableEq

/-- The state carried by a `RowRes`, whichever constructor produced it. -/
def RowRes.st : RowRes → St
  | .next s => s
  | .stop s _ => s

/-- The inner send loop of main.go:
`for result && (r.Size()-offset+7) > PacketSize { send 57-byte SendData chunk; result = parse; offset += 57 }`.
Returns the state, the final offset and the final `result`. -/
def chunkLoop (resp : Nat → List Nat) (st : St) (data : List Nat)
    (size offset : Nat) (result : Bool) : St × Nat × Bool :=
  if h : result = true ∧ chunkCond size offset then
    let p := transact resp st (CreateSendDataCmd ((data.drop offset).take 57))
    match ParseSendDataCmdResult p.2 with
    | .crash => (p.1, offset + 57, false)
    | .ret b _ => chunkLoop resp p.1 data size (offset + 57) b
  else (st, offset, result)
termination_by size - offset
decreasing_by
  all_goals
    obtain ⟨-, hcc⟩ := h
    unfold chunkCond PacketSize at hcc
    have := Nat.mod_le (size - offset + 7) 65536
    omega

/-- One iteration of the row loop of main.go: bounds check, chunked
send, `ProgramRow`, per-row checksum verification.  A false
`ParseProgramRowCmdResult` silently falls through to the next row (the
Go `if` has no else); a false `SendData` result is fatal. -/
def processRow (resp : Nat → List Nat) (st : St) (r : Row)
    (startRow endRow : Nat) : RowRes :=
  if r.rowNum < startRow ∨ r.rowNum > endRow then .stop st (.fatal "Error")
  else
    match chunkLoop resp st r.data r.size 0 true with
    | (st1, offset, result) =>
      if result then
        let p := transact resp st1
          (CreateProgramRowCmd ((r.data.drop offset).take (r.size - offset)) r.arrayID r.rowNum)
        match ParseProgramRowCmdResult p.2 with
        | .crash => .stop p.1 .crashed
        | .ret true _ =>
          let expected := expectedRowChecksum r.checksum r.arrayID r.rowNum r.size
          let q := transact resp p.1 (CreateGetRowChecksumCmd r.arrayID r.rowNum)
          match ParseGetRowChecksumCmdResult q.2 with
          | .crash => .stop q.1 .crashed
          | .ret _ (some _) => .stop q.1 (.fatal "Error parsing frame")
          | .ret v none =>
            if expected ≠ v then .stop q.1 (.fatal "Error") else .next q.1
        | .ret false _ => .next p.1
      else .stop st1 (.fatal "Error")

/-- The row loop of main.go over the parsed rows in file order. -/
def rowsLoop (resp : Nat → List Nat) (st : St) (rows : List Row)
    (startRow endRow : Nat) : RowRes :=
  match rows with
  | [] => .next st
  | r :: rest =>
    match processRow resp st r startRow endRow with
    | .stop st1 o => .stop st1 o
    | .next st1 => rowsLoop resp st1 rest startRow endRow

/-- Modelled from the spec: `cybootloader_protocol.GetFlashSize(peripheral)`
(called at main.go line 320) is not under src/ — the commands.go present
is an earlier revision without it.  Per §4.2/§4.3 of the spec it queries
the flash bounds in one transaction: build the GetFlashSize request,
write it, read the response, and parse `startRow`/`endRow`, returning
the parse error if any.  The array id sent is 0 (the caller passes only
the transport). -/
def GetFlashSize (resp : Nat → List Nat) (st : St) : St × GoVal (Option FlashBounds) :=
  let q := transact resp st (CreateGetFlashSizeCmd 0)
  (q.1, ParseCreateGetFlashSizeCmdResult q.2)

/-- Tail of `main`: the unconditional exit-bootloader write (lines
387-388), reached only when no `checkError` fired earlier. -/
def finishExit (st : St) (rep : Bool) (capp : Option Nat) : SessionResult :=
  ⟨st.sent ++ [CreateExitBootloaderCmd], .completed, rep, capp⟩

/-- `VerifyAppChecksum` step of main.go (lines 374-383): one
transaction, the parse error is discarded (`checksumApp, _ := ...`), and
`[SUCCESS]` is logged exactly when the returned value is non-zero; then
the exit-bootloader write. -/
def finishVerify (resp : Nat → List Nat) (st : St) : SessionResult :=
  let p := transact resp st CreateVerifyAppChecksumCmd
  match ParseVerifyAppChecksumCmdResult p.2 with
  | .crash => ⟨p.1.sent, .crashed, false, none⟩
  | .ret c _ => finishExit p.1 (decide (c ≠ 0)) (some c)

/-- The session from main.go (third revision, lines 299-392): the
restart-only path, or enter-bootloader, identity check, flash bounds,
the row loop, verify-app-checksum, and the exit-bootloader write.
Every `checkError` with a non-nil error is an immediate `fatal`
termination. -/
def runSession (f : Cyacd) (key : Option (List Nat)) (restart : Bool)
    (resp : Nat → List Nat) : SessionResult :=
  if restart then ⟨[CreateExitBootloaderCmd], .completed, false, none⟩
  else
    match CreateEnterBootloaderCmd key with
    | .error _ => ⟨[], .fatal "Error creating frame", false, none⟩
    | .ok enterFrame =>
      let p := transact resp ⟨[], 0⟩ enterFrame
      match ParseEnterBootloaderCmdResult p.2 with
      | .crash => ⟨p.1.sent, .crashed, false, none⟩
      | .ret _ (some _) => ⟨p.1.sent, .fatal "Error parsing frame", false, none⟩
      | .ret none none => finishExit p.1 false none
      | .ret (some info) none =>
        if f.siliconID ≠ info.siliconID ∨ f.siliconRev ≠ info.siliconRev then
          ⟨p.1.sent, .fatal "Error", false, none⟩
        else
          match GetFlashSize resp p.1 with
          | (st2, .crash) => ⟨st2.sent, .crashed, false, none⟩
          | (st2, .ret _ (some _)) => ⟨st2.sent, .fatal "Error", false, none⟩
          | (st2, .ret fb none) =>
            let bounds := fb.getD ⟨0, 0⟩
            match rowsLoop resp st2 f.rows bounds.startRow bounds.endRow with
            | .stop st3 o => ⟨st3.sent, o, false, none⟩
            | .next st3 => finishVerify resp st3

/-! ## Concrete images and device behaviours used in the theorems -/

/-- A parsed image whose header claims siliconID 1, revision 0, with no
rows. -/
def imageOne : Cyacd := ⟨1, 0, []⟩

/-- A device that answers every read with a well-formed EnterBootloader
response reporting siliconID 0x05040302 (status success, length field 8,
stop byte in place) — mismatching `imageOne`. -/
def mismatchResp : Nat → List Nat :=
  fun _ => [1, 0, 8, 0, 2, 3, 4, 5, 6, 7, 8, 9, 10, 11, 0x17]

/-- A device for a fully successful empty-image session against
`imageOne`: a matching EnterBootloader response, a GetFlashSize response
with bounds 0–0xFFFF, then a VerifyAppChecksum response whose checksum
value is 0. -/
def respOk : Nat → List Nat := fun n =>
  if n = 0 then [1, 0, 8, 0, 1, 0, 0, 0, 0, 9, 8, 7, 6, 5, 0x17]
  else if n = 1 then [1, 0, 4, 0, 2, 1, 255, 255, 9, 8, 0x17]
  else [1, 0, 1, 0, 0, 9, 8, 0x17]

/-! ## Arithmetic helper lemmas -/

theorem and_255_eq_mod (x : Nat) : x &&& 255 = x % 256 := by
  have h := Nat.and_pow_two_sub_one_eq_mod x 8
  norm_num at h
  exact h

theorem shiftRight_8_eq_div (x : Nat) : x >>> 8 = x / 256 := by
  have h := Nat.shiftRight_eq_div_pow x 8
  norm_num at h
  exact h

theorem xor_mod_two_pow (a b n : Nat) :
    (a ^^^ b) % 2 ^ n = (a % 2 ^ n) ^^^ (b % 2 ^ n) := by
  apply Nat.eq_of_testBit_eq
  intro i
  simp only [Nat.testBit_mod_two_pow, Nat.testBit_xor]
  by_cases hi : i < n <;> simp [hi]

theorem two_pow_sub_one_xor (n : Nat) :
    ∀ r, r < 2 ^ n → (2 ^ n - 1) ^^^ r = 2 ^ n - 1 - r := by
  induction n with
  | zero =>
    intro r hr
    have : r = 0 := by omega
    subst this
    simp
  | succ n ih =>
    intro r hr
    have hp : 0 < 2 ^ n := Nat.pos_pow_of_pos n (by omega)
    have hdiv : ((2 ^ (n + 1) - 1) ^^^ r) / 2 = 2 ^ n - 1 - r / 2 := by
      rw [Nat.xor_div_two]
      have h2 : (2 ^ (n + 1) - 1) / 2 = 2 ^ n - 1 := by
        rw [Nat.pow_succ]
        omega
      rw [h2]
      exact ih (r / 2) (by rw [Nat.pow_succ] at hr; omega)
    have hone : (2 ^ (n + 1) - 1) % 2 = 1 := by
      rw [Nat.pow_succ]
      omega
    have hmod : ((2 ^ (n + 1) - 1) ^^^ r) % 2 = 1 - r % 2 := by
      by_cases hr2 : r % 2 = 1
      · have hx : ¬ (((2 ^ (n + 1) - 1) ^^^ r) % 2 = 1) := by
          intro hx
          exact (Nat.xor_mod_two_eq_one.mp hx) ⟨fun _ => hr2, fun _ => hone⟩
        omega
      · have hx : ((2 ^ (n + 1) - 1) ^^^ r) % 2 = 1 :=
          Nat.xor_mod_two_eq_one.mpr (fun hiff => hr2 (hiff.mp hone))
        omega
    have hx := Nat.div_add_mod ((2 ^ (n + 1) - 1) ^^^ r) 2
    have hr' := Nat.div_add_mod r 2
    rw [Nat.pow_succ] at hr hx hdiv hmod ⊢
    omega

theorem xor_ffff_mod (s : Nat) : (0xffff ^^^ s) % 65536 = 65535 - s % 65536 := by
  have h1 : (0xffff ^^^ s) % 65536 = 0xffff ^^^ (s % 65536) := by
    have h := xor_mod_two_pow 0xffff s 16
    norm_num at h
    exact h
  have h2 : 0xffff ^^^ (s % 65536) = 65535 - s % 65536 := by
    have h := two_pow_sub_one_xor 16 (s % 65536) (by omega)
    norm_num at h
    exact h
  rw [h1, h2]

/-! ## Claim theorems: the checksum (C2, C3) -/

/-- C2: for every frame of length at least 3, `calcChecksum` returns
exactly `(result & 0xFF, (result >> 8) & 0xFF)` where
`result = (1 + (0xFFFF XOR sum)) mod 0x10000` and `sum` is the unsigned
sum of all frame bytes except the final three. -/
theorem calcChecksum_matches_formula (frame : List Nat) (hlen : 3 ≤ frame.length) :
    calcChecksum frame =
      (((1 + (0xffff ^^^ (frame.take (frame.length - 3)).sum)) % 0x10000) &&& 0xff,
       (((1 + (0xffff ^^^ (frame.take (frame.length - 3)).sum)) % 0x10000) >>> 8) &&& 0xff) := by
  have hcc : calcChecksum frame =
      (((1 + (0xffff ^^^ (frame.take (frame.length - 3)).sum)) &&& 255) % 256,
       ((1 + (0xffff ^^^ (frame.take (frame.length - 3)).sum)) >>> 8) % 256) := rfl
  rw [hcc]
  generalize 1 + (0xffff ^^^ (frame.take (frame.length - 3)).sum) = R
  rw [Prod.mk.injEq]
  rw [and_255_eq_mod, and_255_eq_mod, and_255_eq_mod, shiftRight_8_eq_div, shiftRight_8_eq_div]
  constructor
  · omega
  · omega

/-- Witness for `calcChecksum_matches_formula` at the concrete frame
`[1, 2, 3]`. -/
theorem calcChecksum_matches_formula_witness :
    3 ≤ ([1, 2, 3] : List Nat).length ∧
    calcChecksum [1, 2, 3] =
      (((1 + (0xffff ^^^ (([1, 2, 3] : List Nat).take (([1, 2, 3] : List Nat).length - 3)).sum)) % 0x10000) &&& 0xff,
       (((1 + (0xffff ^^^ (([1, 2, 3] : List Nat).take (([1, 2, 3] : List Nat).length - 3)).sum)) % 0x10000) >>> 8) &&& 0xff) :=
  ⟨by decide, calcChecksum_matches_formula [1, 2, 3] (by decide)⟩

/-- C3 counterexample: at the frame `[1, 2, 3, 0, 0, 0]` the claimed
round-trip congruence `sum(frame[:-3]) + value ≡ 1 (mod 0x10000)` fails:
the sum is 6, the substituted checksum value is 0xFFFA, and
`(6 + 0xFFFA) mod 0x10000 = 0`, not 1. -/
theorem checksum_roundtrip_claim_false :
    ¬ (((([1, 2, 3, 0, 0, 0] : List Nat).take (([1, 2, 3, 0, 0, 0] : List Nat).length - 3)).sum +
        ((calcChecksum [1, 2, 3, 0, 0, 0]).2 * 256 + (calcChecksum [1, 2, 3, 0, 0, 0]).1)) % 0x10000 = 1) := by
  decide

/-- C3 amended: for every frame byte sequence, the substituted checksum
pair satisfies `sum(frame[:-3]) + (checksumHigh*256 + checksumLow) ≡ 0
(mod 0x10000)` — the two-complement round-trip sums to 0, not 1. -/
theorem checksum_roundtrip (frame : List Nat) :
    ((frame.take (frame.length - 3)).sum +
      ((calcChecksum frame).2 * 256 + (calcChecksum frame).1)) % 0x10000 = 0 := by
  have hcc : calcChecksum frame =
      (((1 + (0xffff ^^^ (frame.take (frame.length - 3)).sum)) &&& 255) % 256,
       ((1 + (0xffff ^^^ (frame.take (frame.length - 3)).sum)) >>> 8) % 256) := rfl
  rw [hcc]
  generalize hS : (frame.take (frame.length - 3)).sum = S
  have hkey := xor_ffff_mod S
  generalize hX : 0xffff ^^^ S = X at hkey ⊢
  rw [and_255_eq_mod, shiftRight_8_eq_div]
  omega

/-! ## Claim theorem: row-number encoding in request frames (C4) -/

/-- C4 (code bug): the claim requires the second row-number payload byte
to be `rowNum div 256`, but all three builders compute
`byte(row) >> 8` — the byte cast truncates before the shift — so that
byte is always 0.  At `arrayID = 0`, `rowNum = 0x0100` the low byte
(index 5) is 0 and the high byte (index 6) is 0, while
`0x0100 div 256 = 1`. -/
theorem rowNum_high_byte_always_zero :
    (CreateProgramRowCmd [] 0 0x0100).getD 5 0 = 0 ∧
    (CreateProgramRowCmd [] 0 0x0100).getD 6 0 = 0 ∧
    (CreateGetRowChecksumCmd 0 0x0100).getD 5 0 = 0 ∧
    (CreateGetRowChecksumCmd 0 0x0100).getD 6 0 = 0 ∧
    (CreateEraseRowCmd 0 0x0100).getD 5 0 = 0 ∧
    (CreateEraseRowCmd 0 0x0100).getD 6 0 = 0 ∧
    (0x0100 : Nat) / 256 = 1 := by
  decide

/-! ## Claim theorem: the per-row expected checksum (C7) -/

/-- C7: the expected per-row checksum computed before `GetRowChecksum`
equals `(checksum + arrayID + high8(rowNum) + low8(rowNum) + low8(size)
+ high8(size)) mod 256`; at `checksum=0x10, arrayID=0x00,
rowNum=0x0005, size=0x0040` it equals 0x55. -/
theorem expectedRowChecksum_matches_formula (c a rn sz : Nat)
    (hbc : c < 256) (hba : a < 256) (hbrn : rn < 65536) (hbsz : sz < 65536) :
    expectedRowChecksum c a rn sz =
      (c + a + rn / 256 + rn % 256 + sz % 256 + sz / 256) % 256 ∧
    expectedRowChecksum 0x10 0x00 0x0005 0x0040 = 0x55 := by
  constructor
  · unfold expectedRowChecksum
    rw [shiftRight_8_eq_div, shiftRight_8_eq_div]
    omega
  · decide

/-- Witness for `expectedRowChecksum_matches_formula` at the literal
inputs of the claim. -/
theorem expectedRowChecksum_matches_formula_witness :
    (0x10 : Nat) < 256 ∧ (0x00 : Nat) < 256 ∧ (0x0005 : Nat) < 65536 ∧ (0x0040 : Nat) < 65536 ∧
    (expectedRowChecksum 0x10 0x00 0x0005 0x0040 =
      (0x10 + 0x00 + 0x0005 / 256 + 0x0005 % 256 + 0x0040 % 256 + 0x0040 / 256) % 256 ∧
     expectedRowChecksum 0x10 0x00 0x0005 0x0040 = 0x55) :=
  ⟨by decide, by decide, by decide, by decide,
    expectedRowChecksum_matches_formula 0x10 0x00 0x0005 0x0040
      (by decide) (by decide) (by decide) (by decide)⟩

/-! ## Claim theorem: chunking completeness (C6) -/

theorem chunkCond_gt {size offset : Nat} (h : chunkCond size offset) :
    offset + 57 < size := by
  unfold chunkCond PacketSize at h
  have hx := Nat.mod_le (size - offset + 7) 65536
  omega

theorem chunks_join_aux (k : Nat) :
    ∀ (data : List Nat) (size offset : Nat), size - offset ≤ k →
    (sendDataChunks data size offset).flatten ++
      ((data.drop (finalOffset size offset)).take (size - finalOffset size offset)) =
    (data.drop offset).take (size - offset) := by
  induction k with
  | zero =>
    intro data size offset hk
    have hc : ¬ chunkCond size offset := fun h => by have := chunkCond_gt h; omega
    rw [sendDataChunks, if_neg hc, finalOffset, if_neg hc]
    simp
  | succ k ih =>
    intro data size offset hk
    by_cases hc : chunkCond size offset
    · have h57 := chunkCond_gt hc
      rw [sendDataChunks, if_pos hc, finalOffset, if_pos hc]
      rw [List.flatten_cons, List.append_assoc]
      rw [ih data size (offset + 57) (by omega)]
      have hsplit := List.take_add (data.drop offset) 57 (size - (offset + 57))
      have h1 : 57 + (size - (offset + 57)) = size - offset := by omega
      rw [h1] at hsplit
      rw [hsplit, List.drop_drop]
    · rw [sendDataChunks, if_neg hc, finalOffset, if_neg hc]
      simp

theorem chunks_length_aux (k : Nat) :
    ∀ (data : List Nat) (size offset : Nat), size - offset ≤ k → size ≤ data.length →
    ∀ c ∈ sendDataChunks data size offset, c.length = 57 := by
  induction k with
  | zero =>
    intro data size offset hk hlen c hc
    have hcc : ¬ chunkCond size offset := fun h => by have := chunkCond_gt h; omega
    rw [sendDataChunks, if_neg hcc] at hc
    simp at hc
  | succ k ih =>
    intro data size offset hk hlen c hc
    by_cases hcc : chunkCond size offset
    · have h57 := chunkCond_gt hcc
      rw [sendDataChunks, if_pos hcc] at hc
      rcases List.mem_cons.mp hc with h | h
      · subst h
        rw [List.length_take, List.length_drop]
        omega
      · exact ih data size (offset + 57) (by omega) hlen c h
    · rw [sendDataChunks, if_neg hcc] at hc
      simp at hc

/-- C6: for every row of size `S` with packet size 64, the
concatenation of the payloads of all `SendData` chunks (each 57 bytes,
sent while the uint16 condition `S - offset + 7 > 64` holds), followed
by the data portion of the final `ProgramRow` payload, equals the row's
original `S` data bytes — every byte exactly once, no gap, no overlap. -/
theorem chunking_completeness (data : List Nat) (size : Nat)
    (hlen : data.length = size) (hsz : size < 65536) :
    (sendDataChunks data size 0).flatten ++ programRowData data size = data ∧
    ∀ c ∈ sendDataChunks data size 0, c.length = 57 := by
  constructor
  · have h := chunks_join_aux size data size 0 (by omega)
    unfold programRowData
    rw [h]
    simp [← hlen]
  · exact chunks_length_aux size data size 0 (by omega) (by omega)

/-- Witness for `chunking_completeness` on a concrete 120-byte row:
two full 57-byte chunks followed by a 6-byte `ProgramRow` remainder. -/
theorem chunking_completeness_witness :
    (List.range 120).length = 120 ∧ (120 : Nat) < 65536 ∧
    ((sendDataChunks (List.range 120) 120 0).flatten ++ programRowData (List.range 120) 120 =
        List.range 120 ∧
      ∀ c ∈ sendDataChunks (List.range 120) 120 0, c.length = 57) :=
  ⟨by simp, by norm_num, chunking_completeness (List.range 120) 120 (by simp) (by norm_num)⟩

/-! ## Session invariants (main.go)

The exit-bootloader frame is the only frame whose command byte is 0x3B;
every frame the session writes before the final exit write carries a
different command byte, which pins down exactly where the exit frame can
appear in the trace. -/

theorem transact_fst (resp : Nat → List Nat) (st : St) (frame : List Nat) :
    (transact resp st frame).1 = ⟨st.sent ++ [frame], st.idx + 1⟩ := rfl

theorem exit_frame_getD1 : CreateExitBootloaderCmd.getD 1 0 = CmdExitBootloader := rfl

theorem ne_exit_of_getD1 {l : List Nat} (h : l.getD 1 0 ≠ CmdExitBootloader) :
    l ≠ CreateExitBootloaderCmd := by
  intro he
  rw [he] at h
  exact h exit_frame_getD1

theorem sendData_getD1 (b : List Nat) :
    (CreateSendDataCmd b).getD 1 0 = CmdSendData := rfl

theorem programRow_getD1 (b : List Nat) (a rn : Nat) :
    (CreateProgramRowCmd b a rn).getD 1 0 = CmdProgramRow := rfl

theorem getRowChecksum_getD1 (a rn : Nat) :
    (CreateGetRowChecksumCmd a rn).getD 1 0 = CmdGetRowChecksum := rfl

theorem getFlashSize_getD1 (a : Nat) :
    (CreateGetFlashSizeCmd a).getD 1 0 = CmdGetFlashSize := rfl

theorem verifyApp_getD1 : CreateVerifyAppChecksumCmd.getD 1 0 = CmdVerifyChecksum := rfl

theorem enter_frame_getD1 {key : Option (List Nat)} {fr : List Nat}
    (h : CreateEnterBootloaderCmd key = .ok fr) :
    fr.getD 1 0 = CmdEnterBootloader := by
  unfold CreateEnterBootloaderCmd at h
  cases key with
  | none =>
    simp only [Except.ok.injEq] at h
    subst h
    rfl
  | some k =>
    dsimp only at h
    by_cases hk : k.length ≠ 6
    · rw [if_pos hk] at h
      exact absurd h (by simp)
    · rw [if_neg hk] at h
      simp only [Except.ok.injEq] at h
      subst h
      rfl

theorem transact_noExit {resp : Nat → List Nat} {st : St} {frame : List Nat}
    (h : CreateExitBootloaderCmd ∉ st.sent) (hf : frame ≠ CreateExitBootloaderCmd) :
    CreateExitBootloaderCmd ∉ (transact resp st frame).1.sent := by
  rw [transact_fst]
  intro hm
  rcases List.mem_append.mp hm with h1 | h1
  · exact h h1
  · rcases List.mem_singleton.mp h1 with h2
    exact hf h2.symm

theorem chunkLoop_noExit (k : Nat) :
    ∀ (resp : Nat → List Nat) (st : St) (data : List Nat) (size offset : Nat) (result : Bool),
    size - offset ≤ k →
    CreateExitBootloaderCmd ∉ st.sent →
    CreateExitBootloaderCmd ∉ (chunkLoop resp st data size offset result).1.sent := by
  induction k with
  | zero =>
    intro resp st data size offset result hk h
    have hc : ¬ (result = true ∧ chunkCond size offset) := by
      rintro ⟨-, hcc⟩
      have := chunkCond_gt hcc
      omega
    rw [chunkLoop, dif_neg hc]
    exact h
  | succ k ih =>
    intro resp st data size offset result hk h
    by_cases hc : result = true ∧ chunkCond size offset
    · have h57 := chunkCond_gt hc.2
      have hst : CreateExitBootloaderCmd ∉
          (transact resp st (CreateSendDataCmd ((data.drop offset).take 57))).1.sent :=
        transact_noExit h (ne_exit_of_getD1 (by rw [sendData_getD1]; decide))
      rw [chunkLoop, dif_pos hc]
      cases hp : ParseSendDataCmdResult
          (transact resp st (CreateSendDataCmd ((data.drop offset).take 57))).2 with
      | crash =>
        simp only [hp]
        exact hst
      | ret b e =>
        simp only [hp]
        exact ih resp _ data size (offset + 57) b (by omega) hst
    · rw [chunkLoop, dif_neg hc]
      exact h

theorem processRow_inv (resp : Nat → List Nat) (st : St) (r : Row) (s e : Nat)
    (h : CreateExitBootloaderCmd ∉ st.sent) :
    CreateExitBootloaderCmd ∉ (RowRes.st (processRow resp st r s e)).sent ∧
    (∀ st1 o, processRow resp st r s e = .stop st1 o → o ≠ .completed) := by
  unfold processRow
  by_cases hb : r.rowNum < s ∨ r.rowNum > e
  · rw [if_pos hb]
    refine ⟨h, ?_⟩
    intro st1 o h1
    injection h1 with h1a h1b
    subst h1b
    simp
  · rw [if_neg hb]
    rcases hcl : chunkLoop resp st r.data r.size 0 true with ⟨st1, offset, result⟩
    have hst1 : CreateExitBootloaderCmd ∉ st1.sent := by
      have hx := chunkLoop_noExit r.size resp st r.data r.size 0 true (by omega) h
      rw [hcl] at hx
      exact hx
    dsimp only
    cases result with
    | false =>
      simp only [Bool.false_eq_true, if_false]
      refine ⟨hst1, ?_⟩
      intro st2 o h1
      injection h1 with h1a h1b
      subst h1b
      simp
    | true =>
      simp only [if_true]
      have hp : CreateExitBootloaderCmd ∉
          (transact resp st1 (CreateProgramRowCmd ((r.data.drop offset).take (r.size - offset))
            r.arrayID r.rowNum)).1.sent :=
        transact_noExit hst1 (ne_exit_of_getD1 (by rw [programRow_getD1]; decide))
      cases hpp : ParseProgramRowCmdResult
          (transact resp st1 (CreateProgramRowCmd ((r.data.drop offset).take (r.size - offset))
            r.arrayID r.rowNum)).2 with
      | crash =>
        simp only [hpp]
        refine ⟨hp, ?_⟩
        intro st2 o h1
        injection h1 with h1a h1b
        subst h1b
        simp
      | ret b e2 =>
        cases b with
        | false =>
          simp only [hpp]
          refine ⟨hp, ?_⟩
          intro st2 o h1
          exact absurd h1 (by simp)
        | true =>
          simp only [hpp]
          have hq : CreateExitBootloaderCmd ∉
              (transact resp
                (transact resp st1 (CreateProgramRowCmd ((r.data.drop offset).take (r.size - offset))
                  r.arrayID r.rowNum)).1
                (CreateGetRowChecksumCmd r.arrayID r.rowNum)).1.sent :=
            transact_noExit hp (ne_exit_of_getD1 (by rw [getRowChecksum_getD1]; decide))
          cases hpq : ParseGetRowChecksumCmdResult
              (transact resp
                (transact resp st1 (CreateProgramRowCmd ((r.data.drop offset).take (r.size - offset))
                  r.arrayID r.rowNum)).1
                (CreateGetRowChecksumCmd r.arrayID r.rowNum)).2 with
          | crash =>
            simp only [hpq]
            refine ⟨hq, ?_⟩
            intro st2 o h1
            injection h1 with h1a h1b
            subst h1b
            simp
          | ret v e3 =>
            cases e3 with
            | some msg =>
              simp only [hpq]
              refine ⟨hq, ?_⟩
              intro st2 o h1
              injection h1 with h1a h1b
              subst h1b
              simp
            | none =>
              simp only [hpq]
              by_cases hne : expectedRowChecksum r.checksum r.arrayID r.rowNum r.size ≠ v
              · rw [if_pos hne]
                refine ⟨hq, ?_⟩
                intro st2 o h1
                injection h1 with h1a h1b
                subst h1b
                simp
              · rw [if_neg hne]
                refine ⟨hq, ?_⟩
                intro st2 o h1
                exact absurd h1 (by simp)

theorem rowsLoop_inv (rows : List Row) :
    ∀ (resp : Nat → List Nat) (st : St) (s e : Nat),
    CreateExitBootloaderCmd ∉ st.sent →
    CreateExitBootloaderCmd ∉ (RowRes.st (rowsLoop resp st rows s e)).sent ∧
    (∀ st1 o, rowsLoop resp st rows s e = .stop st1 o → o ≠ .completed) := by
  induction rows with
  | nil =>
    intro resp st s e h
    refine ⟨h, ?_⟩
    intro st1 o h1
    exact absurd h1 (by simp [rowsLoop])
  | cons r rest ih =>
    intro resp st s e h
    rw [rowsLoop]
    cases hp : processRow resp st r s e with
    | stop st1 o =>
      have hinv := processRow_inv resp st r s e h
      rw [hp] at hinv
      refine ⟨hinv.1, ?_⟩
      intro st2 o2 h1
      injection h1 with h1a h1b
      subst h1b
      exact hinv.2 st1 o rfl
    | next st1 =>
      have hinv := processRow_inv resp st r s e h
      rw [hp] at hinv
      exact ih resp st1 s e hinv.1

theorem runSession_inv (f : Cyacd) (key : Option (List Nat)) (restart : Bool)
    (resp : Nat → List Nat) :
    ((runSession f key restart resp).outcome = .completed →
      (runSession f key restart resp).sent.getLast? = some CreateExitBootloaderCmd) ∧
    ((runSession f key restart resp).outcome ≠ .completed →
      CreateExitBootloaderCmd ∉ (runSession f key restart resp).sent) ∧
    ((runSession f key restart resp).checksumApp = none ∨
      ∃ c, (runSession f key restart resp).checksumApp = some c ∧
        (runSession f key restart resp).successReported = decide (c ≠ 0) ∧
        (runSession f key restart resp).outcome = .completed) := by
  unfold runSession
  cases restart with
  | true =>
    rw [if_pos rfl]
    refine ⟨fun _ => rfl, fun hne => absurd rfl hne, Or.inl (by simp)⟩
  | false =>
    rw [if_neg (by simp)]
    cases hk : CreateEnterBootloaderCmd key with
    | error msg =>
      simp only [hk]
      refine ⟨fun hC => absurd hC (by simp), fun _ => by simp, Or.inl (by simp)⟩
    | ok fr =>
      simp only [hk]
      have hfrne : fr ≠ CreateExitBootloaderCmd :=
        ne_exit_of_getD1 (by rw [enter_frame_getD1 hk]; decide)
      have hp0 : CreateExitBootloaderCmd ∉ (transact resp ⟨[], 0⟩ fr).1.sent :=
        transact_noExit (by simp) hfrne
      cases hpe : ParseEnterBootloaderCmdResult (transact resp ⟨[], 0⟩ fr).2 with
      | crash =>
        simp only [hpe]
        refine ⟨fun hC => absurd hC (by simp), fun _ => hp0, Or.inl (by simp)⟩
      | ret v err =>
        cases err with
        | some msg =>
          simp only [hpe]
          refine ⟨fun hC => absurd hC (by simp), fun _ => hp0, Or.inl (by simp)⟩
        | none =>
          cases v with
          | none =>
            simp only [hpe]
            unfold finishExit
            refine ⟨fun _ => List.getLast?_concat _, fun hne => absurd rfl hne, Or.inl (by simp)⟩
          | some info =>
            simp only [hpe]
            by_cases hmm : f.siliconID ≠ info.siliconID ∨ f.siliconRev ≠ info.siliconRev
            · rw [if_pos hmm]
              refine ⟨fun hC => absurd hC (by simp), fun _ => hp0, Or.inl (by simp)⟩
            · rw [if_neg hmm]
              unfold GetFlashSize
              dsimp only
              have hq0 : CreateExitBootloaderCmd ∉
                  (transact resp (transact resp ⟨[], 0⟩ fr).1 (CreateGetFlashSizeCmd 0)).1.sent :=
                transact_noExit hp0 (ne_exit_of_getD1 (by rw [getFlashSize_getD1]; decide))
              cases hgf : ParseCreateGetFlashSizeCmdResult
                  (transact resp (transact resp ⟨[], 0⟩ fr).1 (CreateGetFlashSizeCmd 0)).2 with
              | crash =>
                simp only [hgf]
                refine ⟨fun hC => absurd hC (by simp), fun _ => hq0, Or.inl (by simp)⟩
              | ret fb ferr =>
                cases ferr with
                | some m2 =>
                  simp only [hgf]
                  refine ⟨fun hC => absurd hC (by simp), fun _ => hq0, Or.inl (by simp)⟩
                | none =>
                  simp only [hgf]
                  have hloop := rowsLoop_inv f.rows resp
                    (transact resp (transact resp ⟨[], 0⟩ fr).1 (CreateGetFlashSizeCmd 0)).1
                    (fb.getD ⟨0, 0⟩).startRow (fb.getD ⟨0, 0⟩).endRow hq0
                  cases hrl : rowsLoop resp
                      (transact resp (transact resp ⟨[], 0⟩ fr).1 (CreateGetFlashSizeCmd 0)).1
                      f.rows (fb.getD ⟨0, 0⟩).startRow (fb.getD ⟨0, 0⟩).endRow with
                  | stop st3 o =>
                    rw [hrl] at hloop
                    simp only [hrl]
                    refine ⟨fun hC => absurd hC (hloop.2 st3 o rfl), fun _ => hloop.1, Or.inl (by simp)⟩
                  | next st3 =>
                    rw [hrl] at hloop
                    simp only [hrl]
                    unfold finishVerify
                    have hv0 : CreateExitBootloaderCmd ∉
                        (transact resp st3 CreateVerifyAppChecksumCmd).1.sent :=
                      transact_noExit hloop.1 (ne_exit_of_getD1 (by rw [verifyApp_getD1]; decide))
                    cases hvp : ParseVerifyAppChecksumCmdResult
                        (transact resp st3 CreateVerifyAppChecksumCmd).2 with
                    | crash =>
                      simp only [hvp]
                      refine ⟨fun hC => absurd hC (by simp), fun _ => hv0, Or.inl (by simp)⟩
                    | ret c e4 =>
                      simp only [hvp]
                      unfold finishExit
                      exact ⟨fun _ => List.getLast?_concat _, fun hne => absurd rfl hne,
                        Or.inr ⟨c, rfl, rfl, rfl⟩⟩

/-! ## Claim theorems: the session (C1, C8) -/

/-- C1 counterexample: in the session against `imageOne` whose device
reports siliconID 2 (a device mismatch), `checkError` terminates the
process and the ExitBootloader command is never sent — refuting the
claim that ExitBootloader is sent before the session terminates on
every fatal outcome. -/
theorem exit_not_sent_on_mismatch :
    (runSession imageOne none false mismatchResp).outcome = .fatal "Error" ∧
    CreateExitBootloaderCmd ∉ (runSession imageOne none false mismatchResp).sent := by
  decide

/-- C1 amended: the ExitBootloader command is sent (as the final frame)
exactly on sessions that terminate without a fatal error — the normal
completion path and the restart-only path; every fatal termination
(device mismatch, out-of-range row, send failure, row-checksum
mismatch, parse error) exits the process via `log.Fatalln` without
sending ExitBootloader. -/
theorem exit_sent_iff_completed (f : Cyacd) (key : Option (List Nat)) (restart : Bool)
    (resp : Nat → List Nat) :
    ((runSession f key restart resp).outcome = .completed →
      (runSession f key restart resp).sent.getLast? = some CreateExitBootloaderCmd) ∧
    ((runSession f key restart resp).outcome ≠ .completed →
      CreateExitBootloaderCmd ∉ (runSession f key restart resp).sent) :=
  ⟨(runSession_inv f key restart resp).1, (runSession_inv f key restart resp).2.1⟩

/-- Witness for `exit_sent_iff_completed`: a completed session whose
last frame is the exit frame, and a fatally terminated session whose
trace contains no exit frame. -/
theorem exit_sent_iff_completed_witness :
    ((runSession imageOne none false respOk).outcome = .completed ∧
      (runSession imageOne none false respOk).sent.getLast? = some CreateExitBootloaderCmd) ∧
    ((runSession imageOne none false mismatchResp).outcome ≠ .completed ∧
      CreateExitBootloaderCmd ∉ (runSession imageOne none false mismatchResp).sent) :=
  ⟨⟨by decide, (exit_sent_iff_completed imageOne none false respOk).1 (by decide)⟩,
   ⟨by decide, (exit_sent_iff_completed imageOne none false mismatchResp).2 (by decide)⟩⟩

/-- C8: whenever the session reaches the VerifyAppChecksum step (its
parsed value is recorded), a zero value is not reported as success and
the session still completes normally (no communication or transport
error is raised for it), while a non-zero value is reported as
success. -/
theorem verifyAppChecksum_zero_not_success (f : Cyacd) (key : Option (List Nat))
    (restart : Bool) (resp : Nat → List Nat) (c : Nat)
    (h : (runSession f key restart resp).checksumApp = some c) :
    (runSession f key restart resp).successReported = decide (c ≠ 0) ∧
    (runSession f key restart resp).outcome = .completed := by
  rcases (runSession_inv f key restart resp).2.2 with hnone | ⟨c2, hc2, hrep, hout⟩
  · rw [h] at hnone
    exact absurd hnone (by simp)
  · rw [h] at hc2
    injection hc2 with hcc
    subst hcc
    exact ⟨hrep, hout⟩

/-- Witness for `verifyAppChecksum_zero_not_success`: a session whose
VerifyAppChecksum response carries the value 0 completes without
reporting success. -/
theorem verifyAppChecksum_zero_not_success_witness :
    (runSession imageOne none false respOk).checksumApp = some 0 ∧
    ((runSession imageOne none false respOk).successReported = decide ((0 : Nat) ≠ 0) ∧
      (runSession imageOne none false respOk).outcome = .completed) :=
  ⟨by decide, verifyAppChecksum_zero_not_success imageOne none false respOk 0 (by decide)⟩

/-! ## Claim theorem: short inputs panic in the parsers (C10) -/

/-- C10: every response parser aborts with an out-of-range slice panic
(`crash`) on every input shorter than its fixed expected frame size —
15 bytes for EnterBootloader, 7 for the default parser, 11 for
GetFlashSize, 8 for GetRowChecksum — instead of returning an error or a
boolean. -/
theorem parsers_crash_on_short_input (r : List Nat) :
    ((r.length < 15 → ParseEnterBootloaderCmdResult r = .crash) ∧
      (15 ≤ r.length → ParseEnterBootloaderCmdResult r ≠ .crash)) ∧
    ((r.length < 7 → ParseDefaultCmdResult r = .crash) ∧
      (7 ≤ r.length → ParseDefaultCmdResult r ≠ .crash)) ∧
    ((r.length < 11 → ParseCreateGetFlashSizeCmdResult r = .crash) ∧
      (11 ≤ r.length → ParseCreateGetFlashSizeCmdResult r ≠ .crash)) ∧
    ((r.length < 8 → ParseGetRowChecksumCmdResult r = .crash) ∧
      (8 ≤ r.length → ParseGetRowChecksumCmdResult r ≠ .crash)) := by
  refine ⟨⟨?_, ?_⟩, ⟨?_, ?_⟩, ⟨?_, ?_⟩, ⟨?_, ?_⟩⟩ <;> intro h
  · unfold ParseEnterBootloaderCmdResult
    rw [if_pos h]
  · unfold ParseEnterBootloaderCmdResult
    rw [if_neg (by omega)]
    split_ifs <;> simp
  · unfold ParseDefaultCmdResult
    rw [if_pos h]
  · unfold ParseDefaultCmdResult
    rw [if_neg (by omega)]
    split_ifs <;> simp
  · unfold ParseCreateGetFlashSizeCmdResult
    rw [if_pos h]
  · unfold ParseCreateGetFlashSizeCmdResult
    rw [if_neg (by omega)]
    split_ifs <;> simp
  · unfold ParseGetRowChecksumCmdResult
    rw [if_pos h]
  · unfold ParseGetRowChecksumCmdResult
    rw [if_neg (by omega)]
    split_ifs <;> simp

/-- Witness for `parsers_crash_on_short_input` at the empty input. -/
theorem parsers_crash_on_short_input_witness :
    (([] : List Nat).length < 15 ∧ ParseEnterBootloaderCmdResult [] = .crash) ∧
    (([] : List Nat).length < 7 ∧ ParseDefaultCmdResult [] = .crash) ∧
    (([] : List Nat).length < 11 ∧ ParseCreateGetFlashSizeCmdResult [] = .crash) ∧
    (([] : List Nat).length < 8 ∧ ParseGetRowChecksumCmdResult [] = .crash) ∧
    (8 ≤ (List.replicate 8 0).length ∧
      ParseGetRowChecksumCmdResult (List.replicate 8 0) ≠ .crash) :=
  ⟨⟨by decide, (parsers_crash_on_short_input []).1.1 (by decide)⟩,
   ⟨by decide, (parsers_crash_on_short_input []).2.1.1 (by decide)⟩,
   ⟨by decide, (parsers_crash_on_short_input []).2.2.1.1 (by decide)⟩,
   ⟨by decide, (parsers_crash_on_short_input []).2.2.2.1 (by decide)⟩,
   ⟨by decide, (parsers_crash_on_short_input (List.replicate 8 0)).2.2.2.2 (by decide)⟩⟩

/-! ## Claim theorems: response-parser error taxonomy (C9) -/

/-- C9 counterexample: the device-reported error does not carry the
status code.  Two well-framed responses that differ only in their status
byte (1 versus 2) produce exactly the same error value, so the status
code cannot be recovered from the error, refuting the claim that the
device-reported ProtocolError carries the status code. -/
theorem device_error_does_not_carry_status :
    ([1, 1, 9, 8, 7, 6, 5, 4, 3, 2, 9, 8, 7, 6, 0x17] : List Nat).getD 1 0 = 1 ∧
    ([1, 2, 9, 8, 7, 6, 5, 4, 3, 2, 9, 8, 7, 6, 0x17] : List Nat).getD 1 0 = 2 ∧
    ParseEnterBootloaderCmdResult [1, 1, 9, 8, 7, 6, 5, 4, 3, 2, 9, 8, 7, 6, 0x17] =
      .ret none (some bootloaderErrMsg) ∧
    ParseEnterBootloaderCmdResult [1, 2, 9, 8, 7, 6, 5, 4, 3, 2, 9, 8, 7, 6, 0x17] =
      .ret none (some bootloaderErrMsg) ∧
    ParseEnterBootloaderCmdResult [1, 1, 9, 8, 7, 6, 5, 4, 3, 2, 9, 8, 7, 6, 0x17] =
      ParseEnterBootloaderCmdResult [1, 2, 9, 8, 7, 6, 5, 4, 3, 2, 9, 8, 7, 6, 0x17] := by
  decide

/-- C9 amended: on every buffer of at least the expected size, the four
error-returning parsers return an error exactly when the status byte is
non-success or the frame is malformed (wrong start byte, length field
different from the expected result size, wrong stop byte); a non-success
status yields the fixed device-reported-error message — which does not
include the status code — and that message is distinct from the
malformed-frame message. -/
theorem parsers_error_iff (r : List Nat) :
    (15 ≤ r.length →
      (((ParseEnterBootloaderCmdResult r).errOf ≠ none) ↔
        (r.getD 1 0 ≠ CyretSuccess ∨ r.getD 0 0 ≠ CmdStart ∨ r.getD 2 0 ≠ 8 ∨
          r.getD 3 0 ≠ 8 >>> 8 ∨ r.getD 14 0 ≠ CmdStop)) ∧
      (r.getD 1 0 ≠ CyretSuccess →
        (ParseEnterBootloaderCmdResult r).errOf = some bootloaderErrMsg) ∧
      (r.getD 1 0 = CyretSuccess →
        (r.getD 0 0 ≠ CmdStart ∨ r.getD 2 0 ≠ 8 ∨ r.getD 3 0 ≠ 8 >>> 8 ∨ r.getD 14 0 ≠ CmdStop) →
        (ParseEnterBootloaderCmdResult r).errOf = some malformedErrMsg)) ∧
    (11 ≤ r.length →
      (((ParseCreateGetFlashSizeCmdResult r).errOf ≠ none) ↔
        (r.getD 1 0 ≠ CyretSuccess ∨ r.getD 0 0 ≠ CmdStart ∨ r.getD 2 0 ≠ 4 ∨
          r.getD 3 0 ≠ 4 >>> 8 ∨ r.getD 10 0 ≠ CmdStop)) ∧
      (r.getD 1 0 ≠ CyretSuccess →
        (ParseCreateGetFlashSizeCmdResult r).errOf = some bootloaderErrMsg) ∧
      (r.getD 1 0 = CyretSuccess →
        (r.getD 0 0 ≠ CmdStart ∨ r.getD 2 0 ≠ 4 ∨ r.getD 3 0 ≠ 4 >>> 8 ∨ r.getD 10 0 ≠ CmdStop) →
        (ParseCreateGetFlashSizeCmdResult r).errOf = some malformedErrMsg)) ∧
    (8 ≤ r.length →
      (((ParseGetRowChecksumCmdResult r).errOf ≠ none) ↔
        (r.getD 1 0 ≠ CyretSuccess ∨ r.getD 0 0 ≠ CmdStart ∨ r.getD 2 0 ≠ 1 ∨
          r.getD 3 0 ≠ 1 >>> 8 ∨ r.getD 7 0 ≠ CmdStop)) ∧
      (r.getD 1 0 ≠ CyretSuccess →
        (ParseGetRowChecksumCmdResult r).errOf = some bootloaderErrMsg) ∧
      (r.getD 1 0 = CyretSuccess →
        (r.getD 0 0 ≠ CmdStart ∨ r.getD 2 0 ≠ 1 ∨ r.getD 3 0 ≠ 1 >>> 8 ∨ r.getD 7 0 ≠ CmdStop) →
        (ParseGetRowChecksumCmdResult r).errOf = some malformedErrMsg)) ∧
    (8 ≤ r.length →
      (((ParseVerifyAppChecksumCmdResult r).errOf ≠ none) ↔
        (r.getD 1 0 ≠ CyretSuccess ∨ r.getD 0 0 ≠ CmdStart ∨ r.getD 2 0 ≠ 1 ∨
          r.getD 3 0 ≠ 1 >>> 8 ∨ r.getD 7 0 ≠ CmdStop)) ∧
      (r.getD 1 0 ≠ CyretSuccess →
        (ParseVerifyAppChecksumCmdResult r).errOf = some bootloaderErrMsg) ∧
      (r.getD 1 0 = CyretSuccess →
        (r.getD 0 0 ≠ CmdStart ∨ r.getD 2 0 ≠ 1 ∨ r.getD 3 0 ≠ 1 >>> 8 ∨ r.getD 7 0 ≠ CmdStop) →
        (ParseVerifyAppChecksumCmdResult r).errOf = some malformedErrMsg)) ∧
    bootloaderErrMsg ≠ malformedErrMsg := by
  refine ⟨?_, ?_, ?_, ?_, by decide⟩ <;> intro hlen
  · unfold ParseEnterBootloaderCmdResult
    rw [if_neg (by omega)]
    refine ⟨?_, ?_, ?_⟩ <;> split_ifs <;> simp_all [GoVal.errOf]
  · unfold ParseCreateGetFlashSizeCmdResult
    rw [if_neg (by omega)]
    refine ⟨?_, ?_, ?_⟩ <;> split_ifs <;> simp_all [GoVal.errOf]
  · unfold ParseGetRowChecksumCmdResult
    rw [if_neg (by omega)]
    refine ⟨?_, ?_, ?_⟩ <;> split_ifs <;> simp_all [GoVal.errOf]
  · unfold ParseVerifyAppChecksumCmdResult
    rw [if_neg (by omega)]
    refine ⟨?_, ?_, ?_⟩ <;> split_ifs <;> simp_all [GoVal.errOf]

/-- Witness for `parsers_error_iff` on a 15-byte buffer with a
non-success status byte. -/
theorem parsers_error_iff_witness :
    (15 ≤ ([1, 5, 9, 8, 7, 6, 5, 4, 3, 2, 9, 8, 7, 6, 0x17] : List Nat).length ∧
      ([1, 5, 9, 8, 7, 6, 5, 4, 3, 2, 9, 8, 7, 6, 0x17] : List Nat).getD 1 0 ≠ CyretSuccess ∧
      (ParseEnterBootloaderCmdResult [1, 5, 9, 8, 7, 6, 5, 4, 3, 2, 9, 8, 7, 6, 0x17]).errOf =
        some bootloaderErrMsg) ∧
    (8 ≤ ([1, 5, 9, 8, 7, 6, 5, 4, 3, 2, 9, 8, 7, 6, 0x17] : List Nat).length ∧
      (ParseVerifyAppChecksumCmdResult [1, 5, 9, 8, 7, 6, 5, 4, 3, 2, 9, 8, 7, 6, 0x17]).errOf =
        some bootloaderErrMsg) :=
  ⟨⟨by decide, by decide,
     ((parsers_error_iff [1, 5, 9, 8, 7, 6, 5, 4, 3, 2, 9, 8, 7, 6, 0x17]).1 (by decide)).2.1
       (by decide)⟩,
   ⟨by decide,
     ((parsers_error_iff [1, 5, 9, 8, 7, 6, 5, 4, 3, 2, 9, 8, 7, 6, 0x17]).2.2.2.1 (by decide)).2.1
       (by decide)⟩⟩

/-! ## Claim theorems: malformed image input (C5) -/

theorem hexDigitVal_lt (c : Char) (v : Nat) (h : hexDigitVal c = some v) : v < 16 := by
  unfold hexDigitVal at h
  split_ifs at h <;> simp_all <;> omega

theorem hexDecodeBytes_getD_lt : ∀ (s : List Char) (i : Nat), (hexDecodeBytes s).getD i 0 < 256
  | [], _ => by simp [hexDecodeBytes]
  | [a], _ => by simp [hexDecodeBytes]
  | a :: b :: rest, i => by
    rw [hexDecodeBytes]
    cases ha : hexDigitVal a with
    | none => simp
    | some x =>
      cases hb : hexDigitVal b with
      | none => simp
      | some y =>
        have hx := hexDigitVal_lt a x ha
        have hy := hexDigitVal_lt b y hb
        cases i with
        | zero =>
          simp only [List.getD_cons_zero]
          omega
        | succ j =>
          simpa using hexDecodeBytes_getD_lt rest j

/-- C5 counterexample.  The claim says malformed input fails with a
FormatError, but: (a) the header line "zz" is not valid hex, and
`parseHeader` panics (index out of range on the empty decode) instead of
returning an error; (b) the row line ":0000000001AB" decodes to 6 bytes
with `size = 1` — fewer than the `5 + size + 1 = 7` the claim requires —
yet `NewRow` silently accepts it, reusing the single data byte as the
checksum; (c) the invalid-hex row line ":0000000003ABzzzz" decodes to
only 6 bytes with `size = 3`, yet the decode buffer's capacity
(16/2 = 8) covers `decoded[5:8]`, so `NewRow` silently accepts it with
zero-filled data instead of failing. -/
theorem malformed_input_no_formatError :
    parseHeader (some ("zz".data)) = .crash ∧
    (hexDecodeBytes ((":0000000001AB".data).drop 1)).length = 6 ∧
    NewRow (":0000000001AB".data) = .ret ⟨0, 0, 1, 0xAB, [0xAB]⟩ none ∧
    (hexDecodeBytes ((":0000000003ABzzzz".data).drop 1)).length = 6 ∧
    NewRow (":0000000003ABzzzz".data) = .ret ⟨0, 0, 3, 0xAB, [0xAB, 0, 0]⟩ none := by
  decide

/-- C5 amended: no FormatError exists — the hex-decode error is
discarded, and neither parser ever returns an error for a present line
(`NewRow` returns no error at all).  A missing header line surfaces the
read error; a header line whose decode yields fewer than 5 bytes panics
with an index-out-of-range abort; a row line whose decode yields fewer
than 5 bytes panics likewise; a row line whose decode buffer capacity
`len(line[1:])/2` is smaller than `size + 5` panics on the data slice;
every other row line — including invalid-hex lines whose data is
zero-filled beyond the decoded prefix, and decodes of exactly
`size + 5` bytes whose last data byte doubles as the checksum — is
silently accepted. -/
theorem parser_malformed_behaviour :
    parseHeader none = .ret (0, 0) (some "EOF") ∧
    (∀ l : List Char, (parseHeader (some l)).errOf = none) ∧
    (∀ r : List Char, (NewRow r).errOf = none) ∧
    (∀ l : List Char, (hexDecodeBytes l).length < 5 → parseHeader (some l) = .crash) ∧
    (∀ r : List Char, (hexDecodeBytes (r.drop 1)).length < 5 → NewRow r = .crash) ∧
    (∀ r : List Char,
      5 ≤ (hexDecodeBytes (r.drop 1)).length →
      (r.drop 1).length / 2 <
        (((hexDecodeBytes (r.drop 1)).getD 3 0) <<< 8 ||| (hexDecodeBytes (r.drop 1)).getD 4 0) + 5 →
      NewRow r = .crash) := by
  refine ⟨rfl, fun l => ?_, fun r => ?_, fun l hl => ?_, fun r hr => ?_, fun r hr5 hrsz => ?_⟩
  · unfold parseHeader
    dsimp only
    split_ifs <;> rfl
  · unfold NewRow
    dsimp only
    split_ifs <;> rfl
  · unfold parseHeader
    dsimp only
    rw [if_pos hl]
  · unfold NewRow
    rw [if_pos hr]
  · have h3 := hexDecodeBytes_getD_lt (r.drop 1) 3
    have h4 := hexDecodeBytes_getD_lt (r.drop 1) 4
    have hsz : ((hexDecodeBytes (r.drop 1)).getD 3 0) <<< 8 |||
        (hexDecodeBytes (r.drop 1)).getD 4 0 < 2 ^ 16 := by
      apply Nat.or_lt_two_pow
      · rw [Nat.shiftLeft_eq]
        omega
      · omega
    have hcond : ((((hexDecodeBytes (r.drop 1)).getD 3 0) <<< 8 |||
          (hexDecodeBytes (r.drop 1)).getD 4 0) + 5) % 65536 < 5 ∨
        (r.drop 1).length / 2 <
          ((((hexDecodeBytes (r.drop 1)).getD 3 0) <<< 8 |||
            (hexDecodeBytes (r.drop 1)).getD 4 0) + 5) % 65536 := by
      generalize ((hexDecodeBytes (r.drop 1)).getD 3 0) <<< 8 |||
        (hexDecodeBytes (r.drop 1)).getD 4 0 = S at hsz hrsz ⊢
      omega
    unfold NewRow
    rw [if_neg (by omega)]
    dsimp only
    rw [if_pos hcond]

/-- Witness for `parser_malformed_behaviour`: a short valid-hex header
line, a short row line, and a row line whose declared size exceeds the
decode buffer's capacity, all of which panic. -/
theorem parser_malformed_behaviour_witness :
    ((hexDecodeBytes ("00".data)).length < 5 ∧ parseHeader (some ("00".data)) = .crash) ∧
    ((hexDecodeBytes (("X00".data).drop 1)).length < 5 ∧ NewRow ("X00".data) = .crash) ∧
    (5 ≤ (hexDecodeBytes ((":0000000002AB".data).drop 1)).length ∧
      ((":0000000002AB".data).drop 1).length / 2 <
        (((hexDecodeBytes ((":0000000002AB".data).drop 1)).getD 3 0) <<< 8 |||
          (hexDecodeBytes ((":0000000002AB".data).drop 1)).getD 4 0) + 5 ∧
      NewRow (":0000000002AB".data) = .crash) :=
  ⟨⟨by decide, parser_malformed_behaviour.2.2.2.1 ("00".data) (by decide)⟩,
   ⟨by decide, parser_malformed_behaviour.2.2.2.2.1 ("X00".data) (by decide)⟩,
   ⟨by decide, by decide,
     parser_malformed_behaviour.2.2.2.2.2 (":0000000002AB".data) (by decide) (by decide)⟩⟩

end Bootloader
